import Mathlib

/-!
Shallow embedding of `src/tasks.py` (RobotSpareBin order automation) and
proofs about it.

The script is a linear robotic-process-automation pipeline: download an
orders table, resolve a part-number → model-name catalog from a scraped
HTML table, and for each order row fill the form, submit with bounded
retry, write a receipt PDF, a screenshot, and a merged PDF, then zip the
merged-PDF directory.

Modelling conventions:
* Browser outcomes are oracles: `errVisible i k` tells whether the error
  alert is visible after the `k`-th submit click of order `i`
  (`check_order_success` reads it); the modal helpers take `Except` values
  standing for the two fallible page calls inside the `try` block.
* The Python dict built by `get_model_parts` is an association list with
  Python-dict insertion semantics (`dictInsert`: in-place overwrite of an
  existing key, append otherwise).
* A pandas DataFrame of orders is a `List Row`; the `Series.map` of the
  `Head` column is `mapHeadColumn` (a missing key becomes `none`, as
  `Series.map` yields NaN).
* Directories are lists of file names; writing a file adds its name if
  absent (overwriting keeps the name set); `shutil.make_archive` over the
  merged-PDF directory yields one entry per file of that directory.
* The `while` loop of `submit_until_success` is embedded with explicit
  fuel; `MAX_SUBMISSION_ATTEMPTS + 2` units are enough for the loop to
  exit by its own condition (`count <= MAX_SUBMISSION_ATTEMPTS`), which
  the lemmas below make precise.
-/

namespace RSB

/-- Constant from tasks.py line 12: `MAX_SUBMISSION_ATTEMPTS = 5`. -/
def MAX_SUBMISSION_ATTEMPTS : Nat := 5

/-- tasks.py lines 255-276, `check_order_success`: the page is queried for
the error alert `//div[@class='alert alert-danger'][@role='alert']`; if it
is visible the function returns `False`, else `True`. The visibility
outcome is the argument. -/
def check_order_success (has_error_message : Bool) : Bool :=
  if has_error_message then false else true

/-- One observable browser action of the submission loop: a click on the
order button, or an evaluation of the success predicate with its result. -/
inductive SubmitEvent where
  | click
  | check (success : Bool)
  deriving DecidableEq

/-- tasks.py lines 243-252, the `while` loop of `submit_until_success`,
with explicit fuel. State: `success` (initially `False`) and `count`
(initially 0). While `(not success) and count <= MAX_SUBMISSION_ATTEMPTS`,
the loop increments `count`, clicks submit, and sets
`success = check_order_success(...)`. `errVisible k` is the visibility of
the error alert after the k-th click (0-indexed). The returned trace lists
the clicks and predicate evaluations in order. -/
def submitLoop (errVisible : Nat → Bool) : Nat → Bool → Nat → List SubmitEvent
  | 0, _, _ => []
  | fuel + 1, success, count =>
    if success = false ∧ count ≤ MAX_SUBMISSION_ATTEMPTS then
      SubmitEvent.click ::
        SubmitEvent.check (check_order_success (errVisible count)) ::
          submitLoop errVisible fuel (check_order_success (errVisible count)) (count + 1)
    else []

/-- tasks.py lines 233-252, `submit_until_success`: run the retry loop from
`success = False`, `count = 0`. The fuel `MAX_SUBMISSION_ATTEMPTS + 2`
exceeds the greatest possible number of iterations, so the loop always
stops by its own condition, never by fuel exhaustion. -/
def submit_until_success (errVisible : Nat → Bool) : List SubmitEvent :=
  submitLoop errVisible (MAX_SUBMISSION_ATTEMPTS + 2) false 0

/-- Number of submit clicks in a trace. -/
def countClicks : List SubmitEvent → Nat
  | [] => 0
  | SubmitEvent.click :: rest => countClicks rest + 1
  | SubmitEvent.check _ :: rest => countClicks rest

/-- Number of submit clicks `submit_until_success` performs for one order,
given the per-attempt error-alert visibility. -/
def submitClicks (errVisible : Nat → Bool) : Nat :=
  countClicks (submit_until_success errVisible)

/-- First-match lookup in an association list, the reading side of a
Python dict (keys are unique in any dict we build, so first = only). -/
def dictLookup : List (String × String) → String → Option String
  | [], _ => none
  | (k, v) :: rest, key => if key = k then some v else dictLookup rest key

/-- Python dict assignment `d[k] = v`: if the key is present its value is
overwritten in place, otherwise the pair is appended. -/
def dictInsert (d : List (String × String)) (k v : String) : List (String × String) :=
  if k ∈ d.map Prod.fst then
    d.map (fun p => if p.1 = k then (k, v) else p)
  else d ++ [(k, v)]

/-- tasks.py lines 149-185, `get_model_parts`: the scraped model-info table
(rows of `Part number`, `Model name`) is reduced by the dict comprehension
`{item["Part number"]: item["Model name"] for item in table_dict}`, i.e.
successive insertion into an initially empty dict, later rows overwriting
earlier ones with the same part number. -/
def get_model_parts (table : List (String × String)) : List (String × String) :=
  table.foldl (fun d kv => dictInsert d kv.1 kv.2) []

/-- One row of the downloaded orders CSV
(columns `Order number, Head, Body, Legs, Address`). -/
structure Row where
  order_number : String
  head : String
  body : String
  legs : String
  address : String
  deriving DecidableEq

/-- An order row after the `Head` column was mapped through the catalog:
the head is now an optional model name (`none` models pandas NaN for a
part code absent from the dict). Other columns are untouched. -/
structure MappedRow where
  order_number : String
  head : Option String
  body : String
  legs : String
  address : String
  deriving DecidableEq

/-- tasks.py line 66:
`orders_df["Head"] = orders_df["Head"].map(model_parts_dict)`.
`Series.map` with a dict replaces each value by the dict's value for it,
or NaN (here `none`) when the key is absent; every other column of every
row is unchanged. -/
def mapHeadColumn (model_parts_dict : List (String × String)) (orders_df : List Row) :
    List MappedRow :=
  orders_df.map (fun r =>
    { order_number := r.order_number
      head := dictLookup model_parts_dict r.head
      body := r.body
      legs := r.legs
      address := r.address })

/-- tasks.py lines 291-314, `store_receipt_as_pdf`: the file name written
into the receipts directory for one order. -/
def store_receipt_as_pdf (order_number : String) : String :=
  "receipt_" ++ order_number ++ ".pdf"

/-- tasks.py lines 317-339, `screenshot_robot`: the file name written into
the images directory for one order. -/
def screenshot_robot (order_number : String) : String :=
  "screenshot_" ++ order_number ++ ".png"

/-- tasks.py lines 342-364, `embed_screenshot_to_receipt`: the file name of
the merged (receipt + screenshot) PDF written into the merged-PDFs
directory for one order. -/
def embed_screenshot_to_receipt (order_number : String) : String :=
  "receipt_with_screenshot_" ++ order_number ++ ".pdf"

/-- Writing a file into a directory modelled as its list of file names:
a new name is appended, an existing one is overwritten (the name set is
unchanged). -/
def writeFile (dir : List String) (name : String) : List String :=
  if name ∈ dir then dir else dir ++ [name]

/-- tasks.py lines 14-25: each output directory is created only when it
does not exist (`if not PATH.exists(): PATH.mkdir()`); an existing
directory keeps its contents, a missing one starts empty. -/
def makedir_if_absent (existing : Option (List String)) : List String :=
  match existing with
  | some contents => contents
  | none => []

/-- tasks.py lines 367-378, `archive_receipts`:
`shutil.make_archive(..., root_dir=PDFS_PATH)` zips every file of the
merged-PDFs directory; the archive's entries are that directory's files. -/
def archive_receipts (pdfs_dir : List String) : List String :=
  pdfs_dir

/-- Everything the run writes or observes, per step of the pipeline. -/
structure RunResult where
  submitTraces : List (List SubmitEvent)
  receiptWrites : List String
  screenshotWrites : List String
  mergedWrites : List String
  pdfsDirFinal : List String
  archiveEntries : List String

/-- tasks.py lines 28-80, `order_robots_from_RobotSpareBin`: build the
catalog from the scraped table, map the `Head` column, and for each order
run submit-with-retry and write the receipt, the screenshot and the merged
PDF (each name derived from the order number); finally archive the
merged-PDFs directory. `errVisible i` is the error-alert oracle of order
`i`; `pdfs_dir_initial` is the content the merged-PDFs directory already
had when the run started. -/
def order_robots_from_RobotSpareBin (orders_df : List Row)
    (model_table : List (String × String)) (errVisible : Nat → Nat → Bool)
    (pdfs_dir_initial : List String) : RunResult :=
  let model_parts_dict := get_model_parts model_table
  let orders_mapped := mapHeadColumn model_parts_dict orders_df
  let merged := orders_mapped.map (fun r => embed_screenshot_to_receipt r.order_number)
  let pdfsFinal := merged.foldl writeFile pdfs_dir_initial
  { submitTraces :=
      (List.range orders_mapped.length).map (fun i => submit_until_success (errVisible i))
    receiptWrites := orders_mapped.map (fun r => store_receipt_as_pdf r.order_number)
    screenshotWrites := orders_mapped.map (fun r => screenshot_robot r.order_number)
    mergedWrites := merged
    pdfsDirFinal := pdfsFinal
    archiveEntries := archive_receipts pdfsFinal }

/-- Outcome of `close_annoying_modal`: whether an exception escaped it and
whether the `logger.warning` in its `except` branch ran. -/
structure ModalResult where
  raised : Option String
  warned : Bool
  deriving DecidableEq

/-- tasks.py lines 131-146, `close_annoying_modal`: the `try` block waits
for the modal then clicks OK (two fallible page calls, passed here as
`Except` outcomes, the second only reached when the first succeeds); the
`except Exception` branch catches any exception from either call and logs
a warning. In every case the function returns normally. -/
def close_annoying_modal (wait_for_modal click_ok : Except String Unit) : ModalResult :=
  match wait_for_modal.bind (fun _ => click_ok) with
  | Except.ok _ => { raised := none, warned := false }
  | Except.error _ => { raised := none, warned := true }

/-- A concrete order row, used to instantiate theorems at a closed input. -/
def rowA : Row :=
  { order_number := "1", head := "1", body := "2", legs := "3", address := "x" }

/-- A concrete scraped model-info table (part number, model name). -/
def tableA : List (String × String) := [("1", "Roll-a-thor")]

/-! ## Lemmas about the submission retry loop -/

/-- Once `success` is true the loop body is never entered again. -/
lemma submitLoop_of_true (e : Nat → Bool) (fuel c : Nat) :
    submitLoop e fuel true c = [] := by
  cases fuel <;> simp [submitLoop]

/-- The loop from counter `c` performs at most
`MAX_SUBMISSION_ATTEMPTS + 1 - c` clicks, whatever the fuel. -/
lemma countClicks_submitLoop_le (e : Nat → Bool) :
    ∀ fuel s c, countClicks (submitLoop e fuel s c) ≤ MAX_SUBMISSION_ATTEMPTS + 1 - c := by
  intro fuel
  induction fuel with
  | zero => intro s c; simp [submitLoop, countClicks]
  | succ n ih =>
    intro s c
    by_cases h : s = false ∧ c ≤ MAX_SUBMISSION_ATTEMPTS
    · have hc := h.2
      have hrec := ih (check_order_success (e c)) (c + 1)
      simp only [submitLoop, if_pos h, countClicks]
      omega
    · simp [submitLoop, if_neg h, countClicks]

/-- If the error alert stays visible through every attempt before attempt
`k` and is absent at attempt `k ≤ MAX_SUBMISSION_ATTEMPTS`, the loop
started at counter `c ≤ k` with `success = false` performs exactly
`k + 1 - c` clicks (it stops right after the first successful check). -/
lemma countClicks_submitLoop_first_success (e : Nat → Bool) :
    ∀ fuel c k, c ≤ k → k ≤ MAX_SUBMISSION_ATTEMPTS →
      (∀ i, c ≤ i → i < k → e i = true) → e k = false →
      k + 1 - c ≤ fuel →
      countClicks (submitLoop e fuel false c) = k + 1 - c := by
  intro fuel
  induction fuel with
  | zero => intro c k hck _ _ _ hfuel; omega
  | succ n ih =>
    intro c k hck hkmax hbefore hk hfuel
    have hcond : True ∧ c ≤ MAX_SUBMISSION_ATTEMPTS := ⟨trivial, le_trans hck hkmax⟩
    rcases eq_or_lt_of_le hck with heq | hlt
    · subst heq
      have hsucc : check_order_success (e c) = true := by
        rw [hk]; rfl
      simp only [submitLoop]
      rw [if_pos hcond, hsucc, submitLoop_of_true]
      simp only [countClicks]
      omega
    · have hfail : check_order_success (e c) = false := by
        rw [hbefore c le_rfl hlt]; rfl
      have hrec := ih (c + 1) k hlt hkmax
        (fun i hi hik => hbefore i (by omega) hik) hk (by omega)
      simp only [submitLoop]
      rw [if_pos hcond, hfail]
      simp only [countClicks]
      omega

/-- If the error alert is visible after every click, the loop started at
`c` with `success = false` performs all `MAX_SUBMISSION_ATTEMPTS + 1 - c`
remaining clicks before exhausting its bound. -/
lemma countClicks_submitLoop_all_fail (e : Nat → Bool) (hall : ∀ k, e k = true) :
    ∀ fuel c, MAX_SUBMISSION_ATTEMPTS + 1 - c ≤ fuel →
      countClicks (submitLoop e fuel false c) = MAX_SUBMISSION_ATTEMPTS + 1 - c := by
  intro fuel
  induction fuel with
  | zero =>
    intro c hfuel
    simp only [submitLoop, countClicks]
    omega
  | succ n ih =>
    intro c hfuel
    by_cases hc : c ≤ MAX_SUBMISSION_ATTEMPTS
    · have hcond : True ∧ c ≤ MAX_SUBMISSION_ATTEMPTS := ⟨trivial, hc⟩
      have hfail : check_order_success (e c) = false := by
        rw [hall c]; rfl
      have hrec := ih (c + 1) (by omega)
      simp only [submitLoop]
      rw [if_pos hcond, hfail]
      simp only [countClicks]
      omega
    · have hzero : MAX_SUBMISSION_ATTEMPTS + 1 - c = 0 := by omega
      rw [hzero]
      simp [submitLoop, countClicks, hc]

/-- Whatever the fuel and the starting state, the trace of the loop is a
sequence of whole attempts: for some `n`, the attempts are numbered
`c, c+1, ..., c+n-1` and each contributes a click followed by the check of
the success predicate on that attempt's error-alert visibility. -/
lemma submitLoop_shape (e : Nat → Bool) :
    ∀ fuel s c, ∃ n, submitLoop e fuel s c =
      (List.range' c n).flatMap
        (fun i => [SubmitEvent.click, SubmitEvent.check (check_order_success (e i))]) := by
  intro fuel
  induction fuel with
  | zero =>
    intro s c
    exact ⟨0, by simp [submitLoop]⟩
  | succ n ih =>
    intro s c
    by_cases h : s = false ∧ c ≤ MAX_SUBMISSION_ATTEMPTS
    · obtain ⟨m, hm⟩ := ih (check_order_success (e c)) (c + 1)
      refine ⟨m + 1, ?_⟩
      simp only [submitLoop, if_pos h, hm, List.range'_succ, List.flatMap_cons]
      rfl
    · exact ⟨0, by simp [submitLoop, if_neg h]⟩

/-! ## Claim theorems: submission retry -/

/-- C1: for every sequence of error-alert outcomes, `submit_until_success`
performs at most `MAX_SUBMISSION_ATTEMPTS + 1` submit clicks, and if the
first attempt whose check finds no visible error indicator is attempt `k`
(within the bound), it performs exactly `k + 1` clicks — no click after
the first success. -/
theorem submit_clicks_bounded_and_stop_on_success (errVisible : Nat → Bool) :
    submitClicks errVisible ≤ MAX_SUBMISSION_ATTEMPTS + 1 ∧
    ∀ k, k ≤ MAX_SUBMISSION_ATTEMPTS → (∀ i, i < k → errVisible i = true) →
      errVisible k = false → submitClicks errVisible = k + 1 := by
  constructor
  · have h := countClicks_submitLoop_le errVisible (MAX_SUBMISSION_ATTEMPTS + 2) false 0
    simpa [submitClicks, submit_until_success] using h
  · intro k hk hbefore hsucc
    have h := countClicks_submitLoop_first_success errVisible
      (MAX_SUBMISSION_ATTEMPTS + 2) 0 k (Nat.zero_le k) hk
      (fun i _ hik => hbefore i hik) hsucc (by omega)
    simpa [submitClicks, submit_until_success] using h

/-- C7: the success predicate `check_order_success` is true exactly when no
error indicator is visible and false exactly when one is, and every
attempt of `submit_until_success` is a submit click followed by an
evaluation of that predicate (for some number `n` of attempts, the trace
is attempt 0, ..., attempt `n - 1` in order). -/
theorem attempts_click_then_check (errVisible : Nat → Bool) :
    (∀ visible, (check_order_success visible = true ↔ visible = false) ∧
      (check_order_success visible = false ↔ visible = true)) ∧
    ∃ n, submit_until_success errVisible =
      (List.range n).flatMap
        (fun i => [SubmitEvent.click, SubmitEvent.check (check_order_success (errVisible i))]) := by
  constructor
  · intro visible
    cases visible <;> simp [check_order_success]
  · obtain ⟨n, hn⟩ := submitLoop_shape errVisible (MAX_SUBMISSION_ATTEMPTS + 2) false 0
    exact ⟨n, by rw [submit_until_success, hn, List.range_eq_range']⟩

/-! ## Lemmas about the part catalog (Python dict semantics) -/

/-- Unfolding lemma: lookup in the empty dict. -/
lemma dictLookup_nil (q : String) : dictLookup [] q = none := rfl

/-- Unfolding lemma: lookup in a dict with a leading pair. -/
lemma dictLookup_cons (k v q : String) (rest : List (String × String)) :
    dictLookup ((k, v) :: rest) q = if q = k then some v else dictLookup rest q := rfl

/-- A key is missing from a dict exactly when its lookup is `none`. -/
lemma dictLookup_eq_none (d : List (String × String)) (q : String) :
    dictLookup d q = none ↔ q ∉ d.map Prod.fst := by
  induction d with
  | nil => simp [dictLookup]
  | cons a rest ih =>
    obtain ⟨k, v⟩ := a
    by_cases hqk : q = k
    · subst hqk
      simp [dictLookup]
    · simp [dictLookup, hqk, ih, Ne.symm hqk]

/-- A key present in a dict looks up to some value. -/
lemma dictLookup_isSome_of_mem (d : List (String × String)) (q : String)
    (h : q ∈ d.map Prod.fst) : ∃ v, dictLookup d q = some v := by
  cases hq : dictLookup d q with
  | none => exact absurd ((dictLookup_eq_none d q).mp hq) (by simpa using h)
  | some v => exact ⟨v, rfl⟩

/-- Lookup distributes over append, first list first. -/
lemma dictLookup_append (d₁ d₂ : List (String × String)) (q : String) :
    dictLookup (d₁ ++ d₂) q = (dictLookup d₁ q).or (dictLookup d₂ q) := by
  induction d₁ with
  | nil => simp [dictLookup]
  | cons a rest ih =>
    obtain ⟨k, v⟩ := a
    by_cases hqk : q = k
    · simp [dictLookup, hqk]
    · simp [dictLookup, hqk, ih]

/-- Replacing every pair whose key is `k` by `(k, v)` changes lookups of
`k` (to `v`, when `k` had a value at all) and no other lookup. -/
lemma dictLookup_map_replace (k v : String) :
    ∀ (d : List (String × String)) (q : String),
      dictLookup (d.map (fun p => if p.1 = k then (k, v) else p)) q =
        if q = k then (dictLookup d k).map (fun _ => v) else dictLookup d q := by
  intro d
  induction d with
  | nil => intro q; simp [dictLookup_nil]
  | cons a rest ih =>
    intro q
    obtain ⟨a₁, a₂⟩ := a
    rw [List.map_cons]
    by_cases hak : a₁ = k
    · have hhead : (if (a₁, a₂).1 = k then (k, v) else (a₁, a₂)) = (k, v) := by
        simp [hak]
      rw [hhead]
      by_cases hq : q = k
      · subst hq
        simp [dictLookup_cons, hak]
      · simp [dictLookup_cons, hq, ih, hak]
    · have hhead : (if (a₁, a₂).1 = k then (k, v) else (a₁, a₂)) = (a₁, a₂) := by
        simp [hak]
      rw [hhead]
      by_cases hq : q = a₁
      · subst hq
        simp [dictLookup_cons, hak]
      · simp [dictLookup_cons, hq, ih, Ne.symm hak]

/-- Python dict assignment: afterwards `k` maps to `v` and every other key
to what it mapped to before. -/
lemma dictLookup_dictInsert (d : List (String × String)) (k v q : String) :
    dictLookup (dictInsert d k v) q = if q = k then some v else dictLookup d q := by
  by_cases hmem : k ∈ d.map Prod.fst
  · rw [dictInsert, if_pos hmem, dictLookup_map_replace]
    by_cases hq : q = k
    · obtain ⟨w, hw⟩ := dictLookup_isSome_of_mem d k hmem
      simp [hq, hw]
    · simp [hq]
  · rw [dictInsert, if_neg hmem, dictLookup_append]
    by_cases hq : q = k
    · subst hq
      rw [(dictLookup_eq_none d q).mpr hmem]
      simp [dictLookup]
    · simp [dictLookup, hq]

/-- Python dict assignment adds key `k` when absent and keeps the key list
otherwise. -/
lemma keys_dictInsert (d : List (String × String)) (k v : String) :
    (dictInsert d k v).map Prod.fst =
      if k ∈ d.map Prod.fst then d.map Prod.fst else d.map Prod.fst ++ [k] := by
  by_cases hmem : k ∈ d.map Prod.fst
  · rw [dictInsert, if_pos hmem, if_pos hmem, List.map_map]
    refine List.map_congr_left (fun p _ => ?_)
    by_cases hp : p.1 = k
    · simp [Function.comp, hp]
    · simp [Function.comp, hp]
  · rw [dictInsert, if_neg hmem, if_neg hmem]
    simp

/-- Python dict assignment preserves distinctness of the keys. -/
lemma keys_nodup_dictInsert (d : List (String × String)) (k v : String)
    (h : (d.map Prod.fst).Nodup) : ((dictInsert d k v).map Prod.fst).Nodup := by
  rw [keys_dictInsert]
  by_cases hmem : k ∈ d.map Prod.fst
  · simpa [hmem] using h
  · simp only [if_neg hmem, List.nodup_append, List.disjoint_singleton]
    exact ⟨h, List.nodup_singleton k, hmem⟩

/-- Folding dict insertions keeps the keys distinct. -/
lemma keys_nodup_foldl_dictInsert :
    ∀ (table : List (String × String)) (d : List (String × String)),
      (d.map Prod.fst).Nodup →
      ((table.foldl (fun d kv => dictInsert d kv.1 kv.2) d).map Prod.fst).Nodup := by
  intro table
  induction table with
  | nil => intro d h; simpa using h
  | cons kv rest ih =>
    intro d h
    exact ih (dictInsert d kv.1 kv.2) (keys_nodup_dictInsert d kv.1 kv.2 h)

/-- Folding the rows of a table into a dict: a lookup sees the latest row
with that key, falling back to the starting dict. (The latest row is the
first one of the reversed table.) -/
lemma dictLookup_foldl_dictInsert :
    ∀ (table : List (String × String)) (d : List (String × String)) (q : String),
      dictLookup (table.foldl (fun d kv => dictInsert d kv.1 kv.2) d) q =
        (dictLookup table.reverse q).or (dictLookup d q) := by
  intro table
  induction table with
  | nil => intro d q; simp [dictLookup]
  | cons kv rest ih =>
    intro d q
    rw [List.foldl_cons, ih, List.reverse_cons, dictLookup_append]
    cases hrev : dictLookup rest.reverse q with
    | some w => simp
    | none =>
      simp only [Option.none_or]
      rw [dictLookup_dictInsert]
      by_cases hq : q = kv.1
      · simp [dictLookup, hq]
      · simp [dictLookup, hq]

/-! ## Claim theorems: catalog and head substitution -/

/-- C6: `get_model_parts` reduces the scraped table rows to a single-valued
mapping keyed by part number (no key appears twice), and the value of a
part number is the model name of the latest table row carrying it (the
first row of the reversed table): later duplicates overwrite earlier
ones. -/
theorem get_model_parts_single_valued_last_wins (table : List (String × String)) :
    ((get_model_parts table).map Prod.fst).Nodup ∧
    ∀ part, dictLookup (get_model_parts table) part = dictLookup table.reverse part := by
  constructor
  · exact keys_nodup_foldl_dictInsert table [] (by simp)
  · intro part
    rw [get_model_parts, dictLookup_foldl_dictInsert]
    simp [dictLookup]

/-- C5: the head-substitution step keeps the number of rows, replaces each
row's `Head` by the catalog's model name for its part code, leaves every
other column of that row unchanged, and maps a part code absent from the
catalog to `none` (pandas NaN) rather than flagging it. -/
theorem head_substitution_replaces_head_only (model_parts_dict : List (String × String))
    (orders_df : List Row) (i : Nat) (hi : i < orders_df.length) :
    (mapHeadColumn model_parts_dict orders_df).length = orders_df.length ∧
    (mapHeadColumn model_parts_dict orders_df)[i]? =
      some { order_number := (orders_df.get ⟨i, hi⟩).order_number
             head := dictLookup model_parts_dict (orders_df.get ⟨i, hi⟩).head
             body := (orders_df.get ⟨i, hi⟩).body
             legs := (orders_df.get ⟨i, hi⟩).legs
             address := (orders_df.get ⟨i, hi⟩).address } ∧
    ((orders_df.get ⟨i, hi⟩).head ∉ model_parts_dict.map Prod.fst →
      dictLookup model_parts_dict (orders_df.get ⟨i, hi⟩).head = none) := by
  refine ⟨by simp [mapHeadColumn], ?_, fun h => (dictLookup_eq_none _ _).mpr h⟩
  rw [mapHeadColumn, List.getElem?_map, List.getElem?_eq_getElem hi]
  simp [List.get_eq_getElem]

/-! ## Lemmas about the output directories -/

/-- A file name is in a directory after a write exactly when it was there
before or is the written name. -/
lemma mem_writeFile (dir : List String) (name x : String) :
    x ∈ writeFile dir name ↔ x ∈ dir ∨ x = name := by
  rw [writeFile]
  split_ifs with h
  · refine ⟨fun hx => Or.inl hx, fun hx => ?_⟩
    rcases hx with hx | rfl
    · exact hx
    · exact h
  · simp [List.mem_append]

/-- Writing never duplicates a directory entry. -/
lemma nodup_writeFile (dir : List String) (name : String) (h : dir.Nodup) :
    (writeFile dir name).Nodup := by
  rw [writeFile]
  split_ifs with hmem
  · exact h
  · simp [List.nodup_append, List.disjoint_singleton, h, hmem]

/-- After a sequence of writes, a name is in the directory exactly when it
was there initially or is one of the written names. -/
lemma mem_foldl_writeFile :
    ∀ (names : List String) (dir : List String) (x : String),
      x ∈ names.foldl writeFile dir ↔ x ∈ dir ∨ x ∈ names := by
  intro names
  induction names with
  | nil => intro dir x; simp
  | cons n ns ih =>
    intro dir x
    rw [List.foldl_cons, ih, mem_writeFile, List.mem_cons]
    tauto

/-- A sequence of writes keeps the directory free of duplicate entries. -/
lemma nodup_foldl_writeFile :
    ∀ (names : List String) (dir : List String), dir.Nodup →
      (names.foldl writeFile dir).Nodup := by
  intro names
  induction names with
  | nil => intro dir h; simpa using h
  | cons n ns ih =>
    intro dir h
    exact ih (writeFile dir n) (nodup_writeFile dir n h)

/-! ## Claim theorems: the per-order pipeline and the archive -/

/-- C3: the run writes exactly one merged output document per input row:
the list of merged-PDF writes has the same length as the orders
DataFrame, whatever the catalog, the submission outcomes and the initial
state of the merged-PDFs directory. -/
theorem merged_writes_one_per_row (orders_df : List Row)
    (model_table : List (String × String)) (errVisible : Nat → Nat → Bool)
    (pdfs_dir_initial : List String) :
    (order_robots_from_RobotSpareBin orders_df model_table errVisible
        pdfs_dir_initial).mergedWrites.length = orders_df.length := by
  simp [order_robots_from_RobotSpareBin, mapHeadColumn]

/-- C2: when every submission attempt of order `i` fails (the error alert
is visible after each click), the run is not aborted: that order's
submission trace shows the full `MAX_SUBMISSION_ATTEMPTS + 1` clicks of
the exhausted retry bound, the pipeline still writes the order's receipt,
screenshot and merged PDF, and every row of the table still gets its
merged write (the loop continues to the next order). -/
theorem run_continues_after_submission_exhaustion (orders_df : List Row)
    (model_table : List (String × String)) (errVisible : Nat → Nat → Bool)
    (pdfs_dir_initial : List String) (i : Nat) (hi : i < orders_df.length)
    (hfail : ∀ k, errVisible i k = true) :
    (order_robots_from_RobotSpareBin orders_df model_table errVisible
        pdfs_dir_initial).submitTraces[i]? = some (submit_until_success (errVisible i)) ∧
    countClicks (submit_until_success (errVisible i)) = MAX_SUBMISSION_ATTEMPTS + 1 ∧
    (order_robots_from_RobotSpareBin orders_df model_table errVisible
        pdfs_dir_initial).receiptWrites[i]? =
      some (store_receipt_as_pdf ((orders_df.get ⟨i, hi⟩).order_number)) ∧
    (order_robots_from_RobotSpareBin orders_df model_table errVisible
        pdfs_dir_initial).screenshotWrites[i]? =
      some (screenshot_robot ((orders_df.get ⟨i, hi⟩).order_number)) ∧
    (order_robots_from_RobotSpareBin orders_df model_table errVisible
        pdfs_dir_initial).mergedWrites[i]? =
      some (embed_screenshot_to_receipt ((orders_df.get ⟨i, hi⟩).order_number)) ∧
    (order_robots_from_RobotSpareBin orders_df model_table errVisible
        pdfs_dir_initial).mergedWrites.length = orders_df.length := by
  have hlen : (mapHeadColumn (get_model_parts model_table) orders_df).length
      = orders_df.length := by
    simp [mapHeadColumn]
  refine ⟨?_, ?_, ?_, ?_, ?_, ?_⟩
  · simp only [order_robots_from_RobotSpareBin, List.getElem?_map, hlen,
      List.getElem?_range hi]
    rfl
  · have h := countClicks_submitLoop_all_fail (errVisible i) hfail
      (MAX_SUBMISSION_ATTEMPTS + 2) 0 (by omega)
    simpa [submit_until_success] using h
  · simp [order_robots_from_RobotSpareBin, mapHeadColumn, List.getElem?_map,
      List.getElem?_eq_getElem hi]
  · simp [order_robots_from_RobotSpareBin, mapHeadColumn, List.getElem?_map,
      List.getElem?_eq_getElem hi]
  · simp [order_robots_from_RobotSpareBin, mapHeadColumn, List.getElem?_map,
      List.getElem?_eq_getElem hi]
  · simp [order_robots_from_RobotSpareBin, mapHeadColumn]

/-- C4 (amended): when the merged-PDFs directory is empty at the start of
the run, the archive contains exactly the merged documents the run
produced — an entry appears in the archive exactly when its name was
written as a merged document, no entry is duplicated — and every entry's
name is the merged-document name built from the order identifier of one
of the input rows. -/
theorem archive_matches_merged_documents (orders_df : List Row)
    (model_table : List (String × String)) (errVisible : Nat → Nat → Bool) :
    (order_robots_from_RobotSpareBin orders_df model_table errVisible []).archiveEntries.Nodup ∧
    (∀ name, name ∈ (order_robots_from_RobotSpareBin orders_df model_table
        errVisible []).archiveEntries ↔
      name ∈ (order_robots_from_RobotSpareBin orders_df model_table
        errVisible []).mergedWrites) ∧
    (∀ name, name ∈ (order_robots_from_RobotSpareBin orders_df model_table
        errVisible []).archiveEntries →
      ∃ r, r ∈ orders_df ∧ name = embed_screenshot_to_receipt r.order_number) := by
  refine ⟨?_, fun name => ?_, fun name hname => ?_⟩
  · exact nodup_foldl_writeFile _ [] (List.nodup_nil)
  · rw [show (order_robots_from_RobotSpareBin orders_df model_table
        errVisible []).archiveEntries = ((order_robots_from_RobotSpareBin orders_df
        model_table errVisible []).mergedWrites).foldl writeFile [] from rfl]
    rw [mem_foldl_writeFile]
    simp
  · have hmem : name ∈ (order_robots_from_RobotSpareBin orders_df model_table
        errVisible []).mergedWrites := by
      have h := mem_foldl_writeFile ((order_robots_from_RobotSpareBin orders_df
        model_table errVisible []).mergedWrites) [] name
      have hname2 : name ∈ ((order_robots_from_RobotSpareBin orders_df model_table
        errVisible []).mergedWrites).foldl writeFile [] := hname
      rcases h.mp hname2 with hc | hc
      · simp at hc
      · exact hc
    simp only [order_robots_from_RobotSpareBin, mapHeadColumn, List.map_map,
      List.mem_map, Function.comp] at hmem
    obtain ⟨r, hr, hname3⟩ := hmem
    exact ⟨r, hr, hname3.symm⟩

/-- C9: the output directories are created only when absent (an existing
merged-PDFs directory keeps its contents), the run never empties them, and
the archive holds every file of the merged-PDFs directory — so a file
present in that directory before the run is still there afterwards and
appears in the archive alongside the documents the run produced. -/
theorem preexisting_files_preserved_and_archived (pre : List String)
    (orders_df : List Row) (model_table : List (String × String))
    (errVisible : Nat → Nat → Bool) (f : String) (hf : f ∈ pre) :
    makedir_if_absent (some pre) = pre ∧
    f ∈ (order_robots_from_RobotSpareBin orders_df model_table errVisible
      pre).pdfsDirFinal ∧
    f ∈ (order_robots_from_RobotSpareBin orders_df model_table errVisible
      pre).archiveEntries ∧
    ∀ g, g ∈ (order_robots_from_RobotSpareBin orders_df model_table errVisible
        pre).pdfsDirFinal →
      g ∈ (order_robots_from_RobotSpareBin orders_df model_table errVisible
        pre).archiveEntries := by
  refine ⟨rfl, ?_, ?_, fun g hg => hg⟩
  · exact (mem_foldl_writeFile _ pre f).mpr (Or.inl hf)
  · exact (mem_foldl_writeFile _ pre f).mpr (Or.inl hf)

/-! ## Claim theorems: the modal dialog -/

/-- C8: when the wait for the modal dialog fails (it did not appear within
the timeout), `close_annoying_modal` raises nothing — whatever the OK
click would have done, it is never reached — logs the warning of its
`except` branch, and returns normally so the run continues. -/
theorem modal_absent_is_recovered (click_ok : Except String Unit) (msg : String) :
    close_annoying_modal (Except.error msg) click_ok =
      { raised := none, warned := true } := rfl

/-- C10: `close_annoying_modal` never lets an exception escape: for every
outcome of the wait and of the OK click it returns normally, and whenever
either call fails — not only the modal-absent timeout, also a failing
click on a present modal — the warning is logged. -/
theorem modal_handler_never_raises (wait_for_modal click_ok : Except String Unit) :
    (close_annoying_modal wait_for_modal click_ok).raised = none ∧
    (∀ msg, wait_for_modal = Except.error msg →
      (close_annoying_modal wait_for_modal click_ok).warned = true) ∧
    (∀ msg, wait_for_modal = Except.ok () → click_ok = Except.error msg →
      (close_annoying_modal wait_for_modal click_ok).warned = true) := by
  cases wait_for_modal with
  | error e => exact ⟨rfl, fun msg _ => rfl, fun msg h => by simp at h⟩
  | ok u =>
    cases u
    cases click_ok with
    | error e => exact ⟨rfl, fun msg h => by simp at h, fun msg _ _ => rfl⟩
    | ok v =>
      cases v
      exact ⟨rfl, fun msg h => by simp at h, fun msg _ h => by simp at h⟩

/-! ## Counterexample and witnesses at concrete inputs -/

/-- C4 counterexample: with a stale file already in the merged-PDFs
directory, one order producing one merged document yields an archive with
two entries — one of which (`stale.pdf`) is no merged document of the run
— so the archive does not contain exactly one entry per merged document
produced by that run. -/
theorem archive_entry_per_document_counterexample :
    (order_robots_from_RobotSpareBin [rowA] tableA (fun _ _ => false)
        ["stale.pdf"]).mergedWrites.length = 1 ∧
    (order_robots_from_RobotSpareBin [rowA] tableA (fun _ _ => false)
        ["stale.pdf"]).archiveEntries.length = 2 ∧
    (order_robots_from_RobotSpareBin [rowA] tableA (fun _ _ => false)
        ["stale.pdf"]).archiveEntries.length ≠
      (order_robots_from_RobotSpareBin [rowA] tableA (fun _ _ => false)
        ["stale.pdf"]).mergedWrites.length ∧
    "stale.pdf" ∈ (order_robots_from_RobotSpareBin [rowA] tableA (fun _ _ => false)
        ["stale.pdf"]).archiveEntries ∧
    "stale.pdf" ∉ (order_robots_from_RobotSpareBin [rowA] tableA (fun _ _ => false)
        ["stale.pdf"]).mergedWrites := by
  refine ⟨?_, ?_, ?_, ?_, ?_⟩ <;> decide

/-- Witness for C2: one order whose six submission attempts all fail still
gets its merged PDF written. -/
theorem run_exhaustion_witness :
    countClicks (submit_until_success (fun _ => true)) = MAX_SUBMISSION_ATTEMPTS + 1 ∧
    (order_robots_from_RobotSpareBin [rowA] tableA (fun _ _ => true)
        []).mergedWrites.length = 1 :=
  ⟨(run_continues_after_submission_exhaustion [rowA] tableA (fun _ _ => true) [] 0
      (by decide) (fun k => rfl)).2.1,
    (run_continues_after_submission_exhaustion [rowA] tableA (fun _ _ => true) [] 0
      (by decide) (fun k => rfl)).2.2.2.2.2⟩

/-- Witness for C5: substituting heads on the one-row table replaces the
head by the catalog's value and keeps the other columns. -/
theorem head_substitution_witness :
    (mapHeadColumn tableA [rowA])[0]? =
      some { order_number := rowA.order_number
             head := dictLookup tableA rowA.head
             body := rowA.body
             legs := rowA.legs
             address := rowA.address } :=
  (head_substitution_replaces_head_only tableA [rowA] 0 (by decide)).2.1

/-- Witness for C9: a file present in the merged-PDFs directory before the
run appears in the archive of the run. -/
theorem preexisting_file_witness :
    "old.pdf" ∈ (order_robots_from_RobotSpareBin [rowA] tableA (fun _ _ => true)
      ["old.pdf"]).archiveEntries :=
  (preexisting_files_preserved_and_archived ["old.pdf"] [rowA] tableA
    (fun _ _ => true) "old.pdf" (List.mem_singleton.mpr rfl)).2.2.1

end RSB
